import Mathlib

/-!
Verification development for the mdns-dns-proxy repository.

The definitions below are a shallow embedding of the core request pipeline:
the classifier (`should_handle_domain`), the administrative answerer
(`dns_handler/admin_records.rs`), the response shaper and suppression filter,
the domain rewriter and TTL cap (`mdns_resolver/resolver.rs`), the query-result
cache (`mdns_resolver/cache.rs`), and the SRV/TXT event loops
(`mdns_resolver/query.rs`).  Rust strings are modelled as Lean `String`
(byte positions coincide with character positions on the ASCII names involved),
machine integers as `Nat`, `Instant` timestamps as explicit `Nat` parameters,
and the shared mutable cache as explicit state passing.
-/

/-! ## String helpers mirroring the Rust `str` operations used by the source -/

/-- `leadEq pat s` is true when `pat` is an initial run of `s`
(the building block for the `starts_with` / `ends_with` models). -/
def leadEq {α : Type} [BEq α] : List α → List α → Bool
  | [], _ => true
  | _ :: _, [] => false
  | a :: as, b :: bs => a == b && leadEq as bs

/-- Model of Rust `str::starts_with` for string patterns. -/
def strStartsWith (s t : String) : Bool := leadEq t.data s.data

/-- Model of Rust `str::ends_with` for string patterns. -/
def strEndsWith (s t : String) : Bool := leadEq t.data.reverse s.data.reverse

/-- `partAt pat s`: `pat` occurs as a contiguous run somewhere in `s`. -/
def partAt : List Char → List Char → Bool
  | pat, [] => leadEq pat []
  | pat, c :: rest => leadEq pat (c :: rest) || partAt pat rest

/-- Model of Rust `str::contains` for string patterns. -/
def strHasPart (s t : String) : Bool := partAt t.data s.data

/-- Model of Rust `str::to_lowercase` (ASCII; all names in the proxy are ASCII). -/
def strToLower (s : String) : String := ⟨s.data.map Char.toLower⟩

/-- First `n` characters of `s`; models `String::truncate` keeping `n` bytes. -/
def strTake (s : String) (n : Nat) : String := ⟨s.data.take n⟩

/-- Character length of `s` (equals byte length on ASCII input). -/
def strLen (s : String) : Nat := s.data.length

/-- Model of Rust `str::trim_end_matches('.')`. -/
def strTrimEndDots (s : String) : String :=
  ⟨(s.data.reverse.dropWhile (· == '.')).reverse⟩

/-- Worker for `splitDots`. -/
def splitDotsAux : List Char → List Char → List String
  | [], acc => [⟨acc.reverse⟩]
  | c :: rest, acc =>
    if c == '.' then ⟨acc.reverse⟩ :: splitDotsAux rest []
    else splitDotsAux rest (c :: acc)

/-- Model of Rust `str::split('.')` (keeps empty pieces, e.g. a trailing one). -/
def splitDots (s : String) : List String := splitDotsAux s.data []

/-- DNS label list of a dotted name, lower-cased, without the root label;
this is how hickory `Name` label comparisons behave (case-insensitive). -/
def nameLabels (s : String) : List String := splitDots (strTrimEndDots (strToLower s))

/-- Case-insensitive name equality, the behaviour of `==` on hickory `Name`s. -/
def nameEq (a b : String) : Bool := strToLower a == strToLower b

/-! ## Data model: resource records (`hickory_proto::rr`) -/

/-- DNS record types that appear in the proxy. -/
inductive RecordType
  | A | AAAA | PTR | SRV | TXT | SOA | NS | DS | CNAME | MX
  deriving DecidableEq

/-- The `{:?}` (Debug) rendering of a record type, used by the cache key. -/
def typeName : RecordType → String
  | .A => "A" | .AAAA => "AAAA" | .PTR => "PTR" | .SRV => "SRV" | .TXT => "TXT"
  | .SOA => "SOA" | .NS => "NS" | .DS => "DS" | .CNAME => "CNAME" | .MX => "MX"

/-- IPv4 address as four octets. -/
structure Ipv4 where
  o0 : Nat
  o1 : Nat
  o2 : Nat
  o3 : Nat
  deriving DecidableEq

/-- IPv6 address as its sixteen octets. -/
structure Ipv6 where
  octets : List Nat
  deriving DecidableEq

/-- `std::net::IpAddr`. -/
inductive IpAddr
  | v4 (a : Ipv4)
  | v6 (a : Ipv6)
  deriving DecidableEq

/-- SOA rdata fields. -/
structure SOAData where
  mname : String
  rname : String
  serial : Nat
  refresh : Nat
  retry : Nat
  expire : Nat
  minimum : Nat
  deriving DecidableEq

/-- Record payloads (`RData`). -/
inductive RData
  | A (addr : Ipv4)
  | AAAA (addr : Ipv6)
  | PTR (target : String)
  | SRV (priority weight port : Nat) (target : String)
  | TXT (texts : List String)
  | SOA (soa : SOAData)
  | NS (target : String)
  deriving DecidableEq

/-- A resource record: owner name, TTL, payload (class is always IN). -/
structure Record where
  name : String
  ttl : Nat
  rdata : RData
  deriving DecidableEq

/-- `Record::record_type()`: derived from the payload. -/
def Record.recordType (r : Record) : RecordType :=
  match r.rdata with
  | .A _ => .A
  | .AAAA _ => .AAAA
  | .PTR _ => .PTR
  | .SRV _ _ _ _ => .SRV
  | .TXT _ => .TXT
  | .SOA _ => .SOA
  | .NS _ => .NS

/-- Owner name together with every name embedded in the rdata
(PTR/SRV/NS targets, SOA mname and rname); observer used by the theorems. -/
def recordEmbeddedNames (r : Record) : List String :=
  r.name :: (match r.rdata with
    | .PTR t => [t]
    | .SRV _ _ _ t => [t]
    | .NS t => [t]
    | .SOA s => [s.mname, s.rname]
    | _ => [])

/-- DNS response codes used by the handler. -/
inductive ResponseCode
  | NoError | NXDomain | ServFail | FormErr
  deriving DecidableEq

/-- An inbound, already-parsed question. -/
structure Question where
  name : String
  qtype : RecordType
  deriving DecidableEq

/-! ## Classifier: `should_handle_domain` (src/dns_handler/utils.rs, lines 7-21) -/

/-- `should_handle_domain` from src/dns_handler/utils.rs: accept names ending in
`.local.`/`.local` or containing `._tcp.`/`._udp.`; everything else is refused. -/
def should_handle_domain (name : String) : Bool :=
  let name_lower := strToLower name
  if strEndsWith name_lower ".local." || strEndsWith name_lower ".local" then
    true
  else if strHasPart name_lower "._tcp." || strHasPart name_lower "._udp." then
    true
  else
    false

/-! ## Administrative answerer (src/dns_handler/admin_records.rs) -/

/-- `MAX_ADMIN_TTL` (admin_records.rs line 12). -/
def MAX_ADMIN_TTL : Nat := 10

/-- `RecordSuppressionConfig` (admin_records.rs lines 15-21). -/
structure RecordSuppressionConfig where
  enabled : Bool
  client_ip : Option IpAddr
  deriving DecidableEq

/-- `RecordSuppressionConfig::default()`: suppression on, client unknown. -/
def defaultSuppressionConfig : RecordSuppressionConfig :=
  { enabled := true, client_ip := none }

/-- `is_domain_enumeration_query` (admin_records.rs lines 37-48). -/
def is_domain_enumeration_query (name : String) (record_type : RecordType) : Bool :=
  if record_type ≠ .PTR then false
  else
    let name_str := strToLower name
    strStartsWith name_str "b._dns-sd._udp." ||
    strStartsWith name_str "db._dns-sd._udp." ||
    strStartsWith name_str "lb._dns-sd._udp."

/-- `is_admin_srv_query` (admin_records.rs lines 52-69). -/
def is_admin_srv_query (name : String) (record_type : RecordType) : Bool :=
  if record_type ≠ .SRV then false
  else
    let name_str := strToLower name
    strStartsWith name_str "_dns-llq._udp." ||
    strStartsWith name_str "_dns-llq._tcp." ||
    strStartsWith name_str "_dns-llq-tls._tcp." ||
    strStartsWith name_str "_dns-push-tls._tcp." ||
    strStartsWith name_str "_dns-update._udp." ||
    strStartsWith name_str "_dns-update._tcp." ||
    strStartsWith name_str "_dns-update-tls._tcp."

/-- `is_negative_admin_srv_query` (admin_records.rs lines 150-162). -/
def is_negative_admin_srv_query (name : String) : Bool :=
  let name_str := strToLower name
  strStartsWith name_str "_dns-update._udp." ||
  strStartsWith name_str "_dns-update._tcp." ||
  strStartsWith name_str "_dns-update-tls._tcp." ||
  strStartsWith name_str "_dns-llq._udp." ||
  strStartsWith name_str "_dns-llq._tcp." ||
  strStartsWith name_str "_dns-llq-tls._tcp." ||
  strStartsWith name_str "_dns-push-tls._tcp."

/-- `is_delegation_query_below_apex` (admin_records.rs lines 73-82):
SOA/NS/DS with strictly more labels than the apex and the apex a label suffix. -/
def is_delegation_query_below_apex (name : String) (record_type : RecordType)
    (zone_apex : String) : Bool :=
  match record_type with
  | .SOA | .NS | .DS =>
    decide ((nameLabels zone_apex).length < (nameLabels name).length) &&
    leadEq (nameLabels zone_apex).reverse (nameLabels name).reverse
  | _ => false

/-- `is_zone_apex_query` (admin_records.rs lines 85-87); hickory `Name`
equality is case-insensitive. -/
def is_zone_apex_query (name zone_apex : String) : Bool := nameEq name zone_apex

/-- `generate_soa_record` (admin_records.rs lines 90-116). -/
def generate_soa_record (name : String) : Record :=
  { name := name
    ttl := MAX_ADMIN_TTL
    rdata := .SOA
      { mname := "discovery-proxy.local."
        rname := "hostmaster.local."
        serial := 0
        refresh := 7200
        retry := 3600
        expire := 86400
        minimum := 10 } }

/-- `generate_ns_record` (admin_records.rs lines 119-132). -/
def generate_ns_record (name : String) : Record :=
  { name := name, ttl := MAX_ADMIN_TTL, rdata := .NS "discovery-proxy.local." }

/-- `generate_domain_enumeration_records` (admin_records.rs lines 135-146). -/
def generate_domain_enumeration_records (name zone_apex : String) : List Record :=
  [{ name := name, ttl := MAX_ADMIN_TTL, rdata := .PTR zone_apex }]

/-! ## Address classification and suppression (admin_records.rs lines 164-308) -/

/-- `is_ipv4_link_local`: 169.254.0.0/16. -/
def is_ipv4_link_local (a : Ipv4) : Bool := a.o0 == 169 && a.o1 == 254

/-- `is_ipv6_ula`: fc00::/7 (first octet masked with 0xfe equals 0xfc). -/
def is_ipv6_ula (a : Ipv6) : Bool :=
  match a.octets with
  | o0 :: _ => (o0 &&& 0xfe) == 0xfc
  | [] => false

/-- `is_ipv6_link_local`: fe80::/10. -/
def is_ipv6_link_local (a : Ipv6) : Bool :=
  match a.octets with
  | o0 :: o1 :: _ => o0 == 0xfe && (o1 &&& 0xc0) == 0x80
  | _ => false

/-- `Ipv4Addr::is_loopback`: 127.0.0.0/8. -/
def ipv4_is_loopback (a : Ipv4) : Bool := a.o0 == 127

/-- `Ipv6Addr::is_loopback`: ::1. -/
def ipv6_is_loopback (a : Ipv6) : Bool :=
  a.octets == [0, 0, 0, 0, 0, 0, 0, 0, 0, 0, 0, 0, 0, 0, 0, 1]

/-- `Ipv4Addr::is_private`: 10/8, 172.16/12, 192.168/16. -/
def ipv4_is_private (a : Ipv4) : Bool :=
  a.o0 == 10 ||
  (a.o0 == 172 && Nat.ble 16 a.o1 && Nat.ble a.o1 31) ||
  (a.o0 == 192 && a.o1 == 168)

/-- `is_same_link` (admin_records.rs lines 185-205): loopback clients are local;
two private IPv4 addresses in the same /24 are local; two IPv6 link-local
addresses are local; everything else is a different link. -/
def is_same_link (client target : IpAddr) : Bool :=
  match client, target with
  | .v4 c, t =>
    if ipv4_is_loopback c then true
    else
      match t with
      | .v4 tg =>
        ipv4_is_private c && ipv4_is_private tg &&
        (c.o0 == tg.o0 && c.o1 == tg.o1 && c.o2 == tg.o2)
      | .v6 _ => false
  | .v6 c, t =>
    if ipv6_is_loopback c then true
    else
      match t with
      | .v6 tg => is_ipv6_link_local c && is_ipv6_link_local tg
      | .v4 _ => false

/-- `should_suppress_address_record` (admin_records.rs lines 209-254). -/
def should_suppress_address_record (r : Record) (config : RecordSuppressionConfig) : Bool :=
  if config.enabled then
    match config.client_ip with
    | none => false
    | some client =>
      match r.rdata with
      | .A addr =>
        if is_ipv4_link_local addr then !(is_same_link client (.v4 addr)) else false
      | .AAAA addr =>
        if is_ipv6_link_local addr && !(is_same_link client (.v6 addr)) then true
        else if is_ipv6_ula addr && !(is_same_link client (.v6 addr)) then true
        else false
      | _ => false
  else false

/-- True when the record is an A or AAAA record. -/
def isAddressRecord (r : Record) : Bool :=
  match r.rdata with
  | .A _ => true
  | .AAAA _ => true
  | _ => false

/-- `should_suppress_srv_record` (admin_records.rs lines 258-278). -/
def should_suppress_srv_record (r : Record) (address_records : List Record)
    (config : RecordSuppressionConfig) : Bool :=
  if config.enabled then
    match r.rdata with
    | .SRV _ _ _ target =>
      address_records.any (fun ar =>
        nameEq ar.name target && should_suppress_address_record ar config)
    | _ => false
  else false

/-- `filter_suppressed_records` (admin_records.rs lines 281-308). -/
def filter_suppressed_records (records : List Record)
    (config : RecordSuppressionConfig) : List Record :=
  if config.enabled then
    let address_records := records.filter isAddressRecord
    records.filter (fun r =>
      if isAddressRecord r then !(should_suppress_address_record r config)
      else
        match r.rdata with
        | .SRV _ _ _ _ => !(should_suppress_srv_record r address_records config)
        | _ => true)
  else records

/-! ## Domain rewriter and TTL cap (src/mdns_resolver/resolver.rs) -/

/-- `MAX_UNICAST_TTL` (resolver.rs line 9). -/
def MAX_UNICAST_TTL : Nat := 10

/-- `map_query_to_local` (resolver.rs lines 123-147): strip the discovery
domain suffix (with or without trailing dot) and append `.local.`. -/
def map_query_to_local (name discovery_domain : String) : String :=
  let mapped := strToLower name
  let disc := strToLower discovery_domain
  let disc_no_dot := strTrimEndDots disc
  if strEndsWith mapped disc then
    strTrimEndDots (strTake mapped (strLen mapped - strLen disc)) ++ ".local."
  else if strEndsWith mapped disc_no_dot then
    strTrimEndDots (strTake mapped (strLen mapped - strLen disc_no_dot)) ++ ".local."
  else mapped

/-- `rewrite_name_to_discovery` (resolver.rs lines 149-160): if the name ends
in `local.` (case-insensitive), replace that suffix with the lower-cased
discovery domain; otherwise return it unchanged. -/
def rewrite_name_to_discovery (name discovery_domain : String) : String :=
  let disc := strToLower discovery_domain
  if strEndsWith (strToLower name) "local." then
    strTake name (strLen name - 6) ++ disc
  else name

/-- Per-record part of `rewrite_records_to_discovery_domain`
(resolver.rs lines 162-213): rewrite the owner name and the names embedded in
PTR, SRV, NS and SOA payloads; TTL and scalar fields are preserved. -/
def rewrite_record_to_discovery (r : Record) (discovery_domain : String) : Record :=
  let new_name := rewrite_name_to_discovery r.name discovery_domain
  match r.rdata with
  | .PTR t =>
    { name := new_name, ttl := r.ttl,
      rdata := .PTR (rewrite_name_to_discovery t discovery_domain) }
  | .SRV p w port t =>
    { name := new_name, ttl := r.ttl,
      rdata := .SRV p w port (rewrite_name_to_discovery t discovery_domain) }
  | .NS t =>
    { name := new_name, ttl := r.ttl,
      rdata := .NS (rewrite_name_to_discovery t discovery_domain) }
  | .SOA s =>
    { name := new_name, ttl := r.ttl,
      rdata := .SOA { s with
        mname := rewrite_name_to_discovery s.mname discovery_domain
        rname := rewrite_name_to_discovery s.rname discovery_domain } }
  | _ => { r with name := new_name }

/-- `rewrite_records_to_discovery_domain` (resolver.rs lines 162-213). -/
def rewrite_records_to_discovery_domain (records : List Record)
    (discovery_domain : String) : List Record :=
  records.map (fun r => rewrite_record_to_discovery r discovery_domain)

/-- One record of the TTL-cap loop (resolver.rs lines 89-93):
`if record.ttl() > MAX_UNICAST_TTL { record.set_ttl(MAX_UNICAST_TTL) }`. -/
def capRecord (r : Record) : Record :=
  if MAX_UNICAST_TTL < r.ttl then { r with ttl := MAX_UNICAST_TTL } else r

/-- The TTL-cap loop applied to a record list. -/
def capRecords (records : List Record) : List Record := records.map capRecord

/-! ## Query-result cache (src/mdns_resolver/cache.rs)

The Rust cache wraps a `HashMap<String, CacheEntry>` behind an `RwLock` and
reads wall-clock time from monotonic `Instant`s.  The embedding passes the
map and the current instant explicitly. -/

/-- `CacheEntry` (cache.rs lines 8-11). -/
structure CacheEntry where
  records : List Record
  timestamp : Nat
  deriving DecidableEq

/-- The cache contents: the `HashMap<String, CacheEntry>` as a function. -/
def CacheMap : Type := String → Option CacheEntry

/-- A freshly created cache holds no entries. -/
def emptyCacheMap : CacheMap := fun _ => none

/-- `Cache::make_key` (cache.rs lines 66-68): `format!("{}:{:?}", name, rt)`. -/
def Cache.make_key (name : String) (record_type : RecordType) : String :=
  name ++ ":" ++ typeName record_type

/-- `Cache::get` (cache.rs lines 29-40): return the entry's records when the
entry exists and `now - timestamp < ttl`. -/
def Cache.get (c : CacheMap) (name : String) (record_type : RecordType)
    (now ttl : Nat) : Option (List Record) :=
  match c (Cache.make_key name record_type) with
  | some entry => if now - entry.timestamp < ttl then some entry.records else none
  | none => none

/-- `Cache::insert` (cache.rs lines 43-57): store the entry with the current
instant, then lazily prune every entry whose age reaches the TTL. -/
def Cache.insert (c : CacheMap) (name : String) (record_type : RecordType)
    (records : List Record) (now ttl : Nat) : CacheMap := fun k =>
  match (if k = Cache.make_key name record_type
         then some { records := records, timestamp := now }
         else c k) with
  | some entry => if now - entry.timestamp < ttl then some entry else none
  | none => none

/-! ## Resolver pipeline (src/mdns_resolver/resolver.rs, `MdnsResolver::query`)

The per-type mDNS engine routines are event-driven I/O; `MdnsResolver.query`
takes their outcome as the `engine` argument (`Except.error` is a transport
error, `Except.ok raw` the raw `.local.` records with their internal TTLs). -/

/-- `MdnsResolver::query` (resolver.rs lines 51-120): check the cache, run the
engine, rewrite the records to the discovery domain, cap TTLs at 10 s, then
for A/AAAA partition by type and cache each non-empty part under its own key
(for other types cache the non-empty result), returning the requested part. -/
def MdnsResolver.query (c : CacheMap) (query_name : String) (record_type : RecordType)
    (engine : Except Unit (List Record)) (discovery_domain : String)
    (now ttl : Nat) : Except Unit (List Record) × CacheMap :=
  match Cache.get c query_name record_type now ttl with
  | some cached => (.ok cached, c)
  | none =>
    match engine with
    | .error e => (.error e, c)
    | .ok raw =>
      let records := capRecords (rewrite_records_to_discovery_domain raw discovery_domain)
      if record_type = .A ∨ record_type = .AAAA then
        let a_records := records.filter (fun r => decide (r.recordType = .A))
        let aaaa_records := records.filter (fun r => !(decide (r.recordType = .A)))
        let c1 := if a_records.isEmpty then c
                  else Cache.insert c query_name .A a_records now ttl
        let c2 := if aaaa_records.isEmpty then c1
                  else Cache.insert c1 query_name .AAAA aaaa_records now ttl
        (.ok (if record_type = .A then a_records else aaaa_records), c2)
      else
        let c1 := if records.isEmpty then c
                  else Cache.insert c query_name record_type records now ttl
        (.ok records, c1)

/-! ## Handler glue (src/dns_handler/handler.rs and utils.rs) -/

/-- `build_response_from_records` (utils.rs lines 56-74): `Ok([])` is NOERROR
with no records (RFC 8766 §5.6), `Ok(rs)` is NOERROR with records, an error is
SERVFAIL with no records. -/
def build_response_from_records (records : Except Unit (List Record)) :
    ResponseCode × Option (List Record) :=
  match records with
  | .ok records => if records.isEmpty then (.NoError, none) else (.NoError, some records)
  | .error _ => (.ServFail, none)

/-- `MdnsDnsHandler::handle_admin_query` (handler.rs lines 52-101).  Note the
delegation checks pass the constant types `SOA`, `NS`, `DS` instead of the
question's type, exactly as the source does. -/
def MdnsDnsHandler.handle_admin_query (zone_apex : String) (name : String)
    (record_type : RecordType) : Option (List Record) :=
  if is_domain_enumeration_query name record_type then
    some (generate_domain_enumeration_records name zone_apex)
  else if is_admin_srv_query name record_type then
    some []
  else if record_type = .SOA ∧ is_zone_apex_query name zone_apex then
    some [generate_soa_record name]
  else if is_delegation_query_below_apex name .SOA zone_apex then
    some []
  else if record_type = .NS ∧ is_zone_apex_query name zone_apex then
    some [generate_ns_record name]
  else if is_delegation_query_below_apex name .NS zone_apex then
    some []
  else if is_delegation_query_below_apex name .DS zone_apex then
    some []
  else none

/-- `MdnsDnsHandler::handle_request` (handler.rs lines 106-212) for a
well-formed request: refuse (NXDOMAIN, no records) unless
`should_handle_domain` accepts the name; answer administrative queries
directly; otherwise resolve through `MdnsResolver::query`, pick the response
code with `build_response_from_records`, and apply the suppression filter to a
non-empty record set before emission. -/
def MdnsDnsHandler.handle_request (zone_apex : String)
    (suppression : RecordSuppressionConfig) (discovery_domain : String)
    (ttl : Nat) (c : CacheMap) (now : Nat) (q : Question)
    (engine : Except Unit (List Record)) :
    ResponseCode × List Record × CacheMap :=
  if should_handle_domain q.name then
    match MdnsDnsHandler.handle_admin_query zone_apex q.name q.qtype with
    | some admin_records => (.NoError, admin_records, c)
    | none =>
      let res := MdnsResolver.query c q.name q.qtype engine discovery_domain now ttl
      match build_response_from_records res.1 with
      | (code, some records) => (code, filter_suppressed_records records suppression, res.2)
      | (code, none) => (code, [], res.2)
  else (.NXDomain, [], c)

/-! ## SRV/TXT event loops (src/mdns_resolver/query.rs) -/

/-- `ServiceInfo` as exposed by the mdns-sd events. -/
structure ServiceInfo where
  fullname : String
  hostname : String
  port : Nat
  properties : List (String × String)
  deriving DecidableEq

/-- `mdns_sd::ServiceEvent`. -/
inductive ServiceEvent
  | serviceResolved (info : ServiceInfo)
  | searchStarted (ty : String)
  | searchStopped (ty : String)
  | otherEvent
  deriving DecidableEq

/-- Outcome of one `timeout(poll_interval, receiver.recv_async())` poll. -/
inductive PollResult
  | event (e : ServiceEvent)
  | recvError
  | pollTimeout
  deriving DecidableEq

/-- The single SRV record built on an accepted event (query.rs lines 142-156):
priority 0, weight 0, the event's port and hostname, TTL 120. -/
def srvRecordOf (service_name : String) (info : ServiceInfo) : Record :=
  { name := service_name, ttl := 120, rdata := .SRV 0 0 info.port info.hostname }

/-- The TXT record built on an accepted event (query.rs lines 206-221):
`key=value` strings from the event's properties, TTL 120. -/
def txtRecordOf (service_name : String) (info : ServiceInfo) : Record :=
  { name := service_name, ttl := 120,
    rdata := .TXT (info.properties.map (fun p => p.1 ++ "=" ++ p.2)) }

/-- Event loop of `query_srv` (query.rs lines 134-165): a resolved event is
accepted exactly when `info.get_fullname() == service_name` (plain string
equality); acceptance emits one SRV record and stops; `SearchStopped` and
receive errors stop with what was collected; other events and poll timeouts
continue; the overall deadline ends the poll sequence. -/
def query_srv_loop (service_name : String) : List PollResult → List Record
  | [] => []
  | p :: rest =>
    match p with
    | .event (.serviceResolved info) =>
      if info.fullname = service_name then [srvRecordOf service_name info]
      else query_srv_loop service_name rest
    | .event (.searchStopped _) => []
    | .event _ => query_srv_loop service_name rest
    | .recvError => []
    | .pollTimeout => query_srv_loop service_name rest

/-- `query_srv` (query.rs lines 106-168): fewer than four dot-separated parts
yields an empty result, otherwise the browse loop runs. -/
def query_srv_model (service_name : String) (polls : List PollResult) : List Record :=
  if (splitDots service_name).length < 4 then [] else query_srv_loop service_name polls

/-- Event loop of `query_txt` (query.rs lines 198-231): same acceptance test
as `query_srv`; on acceptance a TXT record is emitted only when the property
list is non-empty, and the loop stops either way. -/
def query_txt_loop (service_name : String) : List PollResult → List Record
  | [] => []
  | p :: rest =>
    match p with
    | .event (.serviceResolved info) =>
      if info.fullname = service_name then
        if (info.properties.map (fun p => p.1 ++ "=" ++ p.2)).isEmpty then []
        else [txtRecordOf service_name info]
      else query_txt_loop service_name rest
    | .event (.searchStopped _) => []
    | .event _ => query_txt_loop service_name rest
    | .recvError => []
    | .pollTimeout => query_txt_loop service_name rest

/-- `query_txt` (query.rs lines 171-234). -/
def query_txt_model (service_name : String) (polls : List PollResult) : List Record :=
  if (splitDots service_name).length < 4 then [] else query_txt_loop service_name polls

/-! ## Reachable cache states and invariants -/

/-- Cache states reachable from the fresh cache through `MdnsResolver::query`
with arbitrary questions, engine outcomes and instants. -/
inductive ReachableCache (discovery_domain : String) (ttl : Nat) : CacheMap → Prop
  | empty : ReachableCache discovery_domain ttl emptyCacheMap
  | step (c : CacheMap) (query_name : String) (record_type : RecordType)
      (engine : Except Unit (List Record)) (now : Nat) :
      ReachableCache discovery_domain ttl c →
      ReachableCache discovery_domain ttl
        (MdnsResolver.query c query_name record_type engine discovery_domain now ttl).2

/-- Every cached record respects the RFC 8766 TTL ceiling. -/
def CacheBounded (c : CacheMap) : Prop :=
  ∀ k e, c k = some e → ∀ r ∈ e.records, r.ttl ≤ 10

/-- Every cached entry holds at least one record. -/
def CacheEntriesNonempty (c : CacheMap) : Prop :=
  ∀ k e, c k = some e → e.records ≠ []

/-! ## Concrete sample data used by the witnesses and counterexamples -/

/-- Raw engine PTR record as produced on the `.local.` side (TTL 120). -/
def samplePtrRaw : Record :=
  { name := "_printer._tcp.local.", ttl := 120,
    rdata := .PTR "Inst._printer._tcp.local." }

/-- The same record after rewriting and TTL capping. -/
def samplePtrOut : Record :=
  { name := "_printer._tcp.mdns.home.arpa.", ttl := 10,
    rdata := .PTR "Inst._printer._tcp.mdns.home.arpa." }

/-- A link-local A record for the suppression witness. -/
def sampleLinkLocalA : Record :=
  { name := "printer.local.", ttl := 120, rdata := .A ⟨169, 254, 1, 1⟩ }

/-- A plain A record used by the cache witnesses. -/
def sampleA : Record :=
  { name := "printer.local.", ttl := 10, rdata := .A ⟨192, 168, 1, 17⟩ }

/-- Resolved-service event for the C9 witness. -/
def sampleSrvInfo : ServiceInfo :=
  { fullname := "myprinter._http._tcp.local.", hostname := "host.local.",
    port := 9100, properties := [("k", "v")] }

/-- Case-variant of `sampleSrvInfo`'s fullname, for the C9 counterexample. -/
def sampleSrvInfoUpper : ServiceInfo :=
  { fullname := "MyPrinter._http._tcp.local.", hostname := "host.local.",
    port := 9100, properties := [] }

/-- Boolean observer for C6: every A record in the list carries an IPv4
link-local address that is not on the client's link. -/
def allARecordsLinkLocalNonLocal (client : IpAddr) (records : List Record) : Bool :=
  records.all (fun r =>
    match r.rdata with
    | .A addr => is_ipv4_link_local addr && !(is_same_link client (.v4 addr))
    | _ => true)

/-! ## Helper lemmas -/

/-- Left-cancellation of list append, used for cache-key disjointness. -/
theorem listCancelLeft {α : Type} (xs : List α) :
    ∀ ys zs : List α, xs ++ ys = xs ++ zs → ys = zs := by
  induction xs with
  | nil => intro ys zs h; simpa using h
  | cons x xs ih =>
    intro ys zs h
    injection h with h1 h2
    exact ih ys zs h2

/-- String append acts as list append on the underlying characters. -/
theorem strDataOfAppend (a b : String) : (a ++ b).data = a.data ++ b.data := rfl

/-- Strings with equal character lists are equal. -/
theorem strOfDataInj {a b : String} (h : a.data = b.data) : a = b :=
  congrArg String.mk h

/-- The Debug rendering of record types is injective. -/
theorem typeName_inj {t1 t2 : RecordType} (h : typeName t1 = typeName t2) : t1 = t2 := by
  cases t1 <;> cases t2 <;> first | rfl | exact absurd h (by decide)

/-- Two cache keys for the same owner name agree only on equal record types. -/
theorem make_key_type_inj {o : String} {t1 t2 : RecordType}
    (h : Cache.make_key o t1 = Cache.make_key o t2) : t1 = t2 := by
  apply typeName_inj
  apply strOfDataInj
  have hd := congrArg String.data h
  simp only [Cache.make_key, strDataOfAppend, List.append_assoc] at hd
  exact listCancelLeft _ _ _ (listCancelLeft _ _ _ hd)

/-- An entry surviving `Cache::insert` is either the freshly inserted one or
was already present unchanged. -/
theorem cache_insert_entry_cases {c : CacheMap} {n : String} {rt : RecordType}
    {recs : List Record} {now ttl : Nat} {k : String} {e : CacheEntry}
    (h : Cache.insert c n rt recs now ttl k = some e) :
    e.records = recs ∨ c k = some e := by
  unfold Cache.insert at h
  by_cases hk : k = Cache.make_key n rt
  · rw [if_pos hk] at h
    dsimp only at h
    split at h
    · injection h with h
      subst h
      exact Or.inl rfl
    · cases h
  · rw [if_neg hk] at h
    cases hc : c k with
    | none => rw [hc] at h; cases h
    | some e' =>
      rw [hc] at h
      dsimp only at h
      split at h
      · injection h with h
        subst h
        exact Or.inr rfl
      · cases h

/-- A successful `Cache::get` reads the records of a stored entry. -/
theorem cache_get_some {c : CacheMap} {n : String} {rt : RecordType} {now ttl : Nat}
    {recs : List Record} (h : Cache.get c n rt now ttl = some recs) :
    ∃ e, c (Cache.make_key n rt) = some e ∧ e.records = recs := by
  unfold Cache.get at h
  cases hc : c (Cache.make_key n rt) with
  | none => rw [hc] at h; cases h
  | some e =>
    rw [hc] at h
    dsimp only at h
    split at h
    · injection h with h
      exact ⟨e, rfl, h⟩
    · cases h

/-- C7: the query-result cache is keyed by the pair (owner name, record type):
inserting records under `(o, t1)` leaves every subsequent `get` for `(o, t2)`
with `t1 ≠ t2` (taken at any instant not before the insert, with no intervening
insert under `(o, t2)`) exactly as it was before the insert — in particular an
A answer cached for a name is never served for an AAAA question on that name. -/
theorem C7_cache_key_separates_types (c : CacheMap) (o : String)
    (t1 t2 : RecordType) (recs : List Record) (tIns tGet ttl : Nat)
    (hne : t1 ≠ t2) (hle : tIns ≤ tGet) :
    Cache.get (Cache.insert c o t1 recs tIns ttl) o t2 tGet ttl
      = Cache.get c o t2 tGet ttl := by
  have hk : ¬ (Cache.make_key o t2 = Cache.make_key o t1) :=
    fun h => hne (make_key_type_inj h).symm
  unfold Cache.get Cache.insert
  rw [if_neg hk]
  cases hc : c (Cache.make_key o t2) with
  | none => rfl
  | some e =>
    dsimp only
    by_cases hf : tIns - e.timestamp < ttl
    · rw [if_pos hf]
    · rw [if_neg hf]
      have hg : ¬ (tGet - e.timestamp < ttl) := by omega
      rw [if_neg hg]

/-- C7 witness at a concrete input: caching an A answer for a name does not
make an AAAA lookup for the same name succeed. -/
theorem C7_witness :
    (RecordType.A ≠ RecordType.AAAA) ∧ (0 ≤ 1) ∧
    Cache.get (Cache.insert emptyCacheMap "printer.local." RecordType.A [sampleA] 0 120)
        "printer.local." RecordType.AAAA 1 120
      = Cache.get emptyCacheMap "printer.local." RecordType.AAAA 1 120 :=
  ⟨by decide, by decide,
    C7_cache_key_separates_types emptyCacheMap "printer.local." RecordType.A RecordType.AAAA
      [sampleA] 0 1 120 (by decide) (by decide)⟩

/-- C8: cache round trip and expiry — `insert` followed by `get` on the same
(owner, type) key returns the inserted list unchanged (same elements, same
order) while less than the cache TTL has elapsed since the insert, and
returns none once the TTL has elapsed. -/
theorem C8_cache_round_trip_and_expiry (c : CacheMap) (o : String) (rt : RecordType)
    (recs : List Record) (tIns tGet ttl : Nat) (hne : recs ≠ []) :
    (tGet - tIns < ttl →
      Cache.get (Cache.insert c o rt recs tIns ttl) o rt tGet ttl = some recs) ∧
    (ttl ≤ tGet - tIns →
      Cache.get (Cache.insert c o rt recs tIns ttl) o rt tGet ttl = none) := by
  unfold Cache.get Cache.insert
  rw [if_pos rfl]
  dsimp only
  constructor
  · intro h
    have h0 : tIns - tIns < ttl := by omega
    rw [if_pos h0]
    dsimp only
    exact if_pos h
  · intro h
    by_cases h0 : tIns - tIns < ttl
    · rw [if_pos h0]
      have hg : ¬ (tGet - tIns < ttl) := by omega
      dsimp only
      exact if_neg hg
    · rw [if_neg h0]

/-- C8 witness at a concrete input: the round trip succeeds one tick after the
insert and fails once the TTL has elapsed. -/
theorem C8_witness :
    ([sampleA] ≠ ([] : List Record)) ∧ (1 - 0 < 120) ∧ (120 ≤ 200 - 0) ∧
    Cache.get (Cache.insert emptyCacheMap "printer.local." RecordType.A [sampleA] 0 120)
        "printer.local." RecordType.A 1 120 = some [sampleA] ∧
    Cache.get (Cache.insert emptyCacheMap "printer.local." RecordType.A [sampleA] 0 120)
        "printer.local." RecordType.A 200 120 = none :=
  ⟨by decide, by decide, by decide,
    (C8_cache_round_trip_and_expiry emptyCacheMap "printer.local." RecordType.A
      [sampleA] 0 1 120 (by decide)).1 (by decide),
    (C8_cache_round_trip_and_expiry emptyCacheMap "printer.local." RecordType.A
      [sampleA] 0 200 120 (by decide)).2 (by decide)⟩

/-- The TTL cap bounds every record at 10 seconds. -/
theorem capRecord_ttl_le (r : Record) : (capRecord r).ttl ≤ 10 := by
  unfold capRecord MAX_UNICAST_TTL
  split
  · exact Nat.le_refl 10
  · omega

/-- Members of a capped list respect the 10-second ceiling. -/
theorem capRecords_ttl_le {rs : List Record} {r : Record}
    (h : r ∈ capRecords rs) : r.ttl ≤ 10 := by
  rcases List.mem_map.mp h with ⟨s, _, rfl⟩
  exact capRecord_ttl_le s

/-- The TTL cap leaves the payload unchanged. -/
theorem capRecord_rdata (r : Record) : (capRecord r).rdata = r.rdata := by
  unfold capRecord
  split <;> rfl

/-- The domain rewriter leaves an A payload unchanged. -/
theorem rewrite_record_rdata_A {r : Record} {disc : String} {a : Ipv4} :
    (rewrite_record_to_discovery r disc).rdata = .A a ↔ r.rdata = .A a := by
  obtain ⟨n, t, d⟩ := r
  cases d <;> simp [rewrite_record_to_discovery]

/-- A record has record type A exactly when its payload is an A payload. -/
theorem recordType_eq_A_iff {r : Record} :
    r.recordType = .A ↔ ∃ a, r.rdata = .A a := by
  obtain ⟨n, t, d⟩ := r
  cases d <;> simp [Record.recordType]

/-- A member of the capped-and-rewritten list comes from a raw record. -/
theorem mem_cap_rewrite {raw : List Record} {disc : String} {r : Record}
    (h : r ∈ capRecords (rewrite_records_to_discovery_domain raw disc)) :
    ∃ s ∈ raw, r = capRecord (rewrite_record_to_discovery s disc) := by
  rcases List.mem_map.mp h with ⟨t, ht, rfl⟩
  rcases List.mem_map.mp ht with ⟨s, hs, rfl⟩
  exact ⟨s, hs, rfl⟩

/-- The suppression filter only removes records. -/
theorem filter_suppressed_subset {records : List Record}
    {config : RecordSuppressionConfig} {r : Record}
    (h : r ∈ filter_suppressed_records records config) : r ∈ records := by
  unfold filter_suppressed_records at h
  split at h
  · exact (List.mem_filter.mp h).1
  · exact h

/-- A filter whose predicate fails on every member gives the empty list. -/
theorem filter_all_false {α : Type} {p : α → Bool} {l : List α}
    (h : ∀ a ∈ l, p a = false) : l.filter p = [] := by
  induction l with
  | nil => rfl
  | cons x xs ih =>
    rw [List.filter_cons_of_neg (by simp [h x (List.mem_cons_self x xs)])]
    exact ih (fun a ha => h a (List.mem_cons_of_mem x ha))

/-- A non-empty boolean test on a list, as membership. -/
theorem ne_nil_of_not_isEmpty {α : Type} {l : List α}
    (h : ¬ (l.isEmpty = true)) : l ≠ [] := by
  cases l with
  | nil => simp at h
  | cons x xs => simp

/-- Inserting TTL-bounded records preserves the cache TTL bound. -/
theorem bounded_insert {c : CacheMap} {n : String} {rt : RecordType}
    {recs : List Record} {now ttl : Nat} (hb : CacheBounded c)
    (hr : ∀ r ∈ recs, r.ttl ≤ 10) :
    CacheBounded (Cache.insert c n rt recs now ttl) := by
  intro k e he r hrm
  rcases cache_insert_entry_cases he with h | h
  · exact hr r (h ▸ hrm)
  · exact hb k e h r hrm

/-- Inserting a non-empty record list preserves entry non-emptiness. -/
theorem nonempty_insert {c : CacheMap} {n : String} {rt : RecordType}
    {recs : List Record} {now ttl : Nat} (hb : CacheEntriesNonempty c)
    (hr : recs ≠ []) :
    CacheEntriesNonempty (Cache.insert c n rt recs now ttl) := by
  intro k e he
  rcases cache_insert_entry_cases he with h | h
  · rw [h]; exact hr
  · exact hb k e h

/-- Records returned by `MdnsResolver::query` from a TTL-bounded cache respect
the RFC 8766 ceiling: cached answers were stored bounded, computed answers
pass through the cap loop. -/
theorem query_records_bounded {c : CacheMap} {qn : String} {rt : RecordType}
    {engine : Except Unit (List Record)} {disc : String} {now ttl : Nat}
    {recs : List Record} (hb : CacheBounded c)
    (h : (MdnsResolver.query c qn rt engine disc now ttl).1 = .ok recs) :
    ∀ r ∈ recs, r.ttl ≤ 10 := by
  unfold MdnsResolver.query at h
  cases hget : Cache.get c qn rt now ttl with
  | some cached =>
    rw [hget] at h
    dsimp only at h
    injection h with h
    subst h
    rcases cache_get_some hget with ⟨e, he, hrec⟩
    intro r hr
    exact hb _ e he r (hrec ▸ hr)
  | none =>
    rw [hget] at h
    cases engine with
    | error e => dsimp only at h; cases h
    | ok raw =>
      dsimp only at h
      split at h
      · dsimp only at h
        injection h with h
        subst h
        intro r hr
        split at hr
        · exact capRecords_ttl_le (List.mem_filter.mp hr).1
        · exact capRecords_ttl_le (List.mem_filter.mp hr).1
      · dsimp only at h
        injection h with h
        subst h
        intro r hr
        exact capRecords_ttl_le hr

/-- `MdnsResolver::query` preserves the cache TTL bound. -/
theorem query_cache_bounded {c : CacheMap} {qn : String} {rt : RecordType}
    {engine : Except Unit (List Record)} {disc : String} {now ttl : Nat}
    (hb : CacheBounded c) :
    CacheBounded (MdnsResolver.query c qn rt engine disc now ttl).2 := by
  unfold MdnsResolver.query
  cases hget : Cache.get c qn rt now ttl with
  | some cached => dsimp only; exact hb
  | none =>
    cases engine with
    | error e => dsimp only; exact hb
    | ok raw =>
      dsimp only
      split
      · dsimp only
        split
        · split
          · exact hb
          · exact bounded_insert hb
              (fun r hr => capRecords_ttl_le (List.mem_filter.mp hr).1)
        · apply bounded_insert
          · split
            · exact hb
            · exact bounded_insert hb
                (fun r hr => capRecords_ttl_le (List.mem_filter.mp hr).1)
          · exact fun r hr => capRecords_ttl_le (List.mem_filter.mp hr).1
      · dsimp only
        split
        · exact hb
        · exact bounded_insert hb (fun r hr => capRecords_ttl_le hr)

/-- `MdnsResolver::query` preserves entry non-emptiness: every insert is
guarded by a non-emptiness check. -/
theorem query_cache_nonempty {c : CacheMap} {qn : String} {rt : RecordType}
    {engine : Except Unit (List Record)} {disc : String} {now ttl : Nat}
    (hne : CacheEntriesNonempty c) :
    CacheEntriesNonempty (MdnsResolver.query c qn rt engine disc now ttl).2 := by
  unfold MdnsResolver.query
  cases hget : Cache.get c qn rt now ttl with
  | some cached => dsimp only; exact hne
  | none =>
    cases engine with
    | error e => dsimp only; exact hne
    | ok raw =>
      dsimp only
      split
      · dsimp only
        split
        · split
          · exact hne
          · next h => exact nonempty_insert hne (ne_nil_of_not_isEmpty h)
        · next h =>
          apply nonempty_insert _ (ne_nil_of_not_isEmpty h)
          split
          · exact hne
          · next h2 => exact nonempty_insert hne (ne_nil_of_not_isEmpty h2)
      · dsimp only
        split
        · exact hne
        · next h => exact nonempty_insert hne (ne_nil_of_not_isEmpty h)

/-- Every reachable cache state is TTL-bounded. -/
theorem reachable_cache_bounded {disc : String} {ttl : Nat} {c : CacheMap}
    (h : ReachableCache disc ttl c) : CacheBounded c := by
  induction h with
  | empty => intro k e he r hr; simp [emptyCacheMap] at he
  | step c qn rt engine now _ ih => exact query_cache_bounded ih

/-- Every reachable cache state has only non-empty entries. -/
theorem reachable_cache_nonempty {disc : String} {ttl : Nat} {c : CacheMap}
    (h : ReachableCache disc ttl c) : CacheEntriesNonempty c := by
  induction h with
  | empty => intro k e he; simp [emptyCacheMap] at he
  | step c qn rt engine now _ ih => exact query_cache_nonempty ih

/-- Administrative answers always carry the 10-second admin TTL. -/
theorem admin_records_ttl {zone_apex n : String} {t : RecordType}
    {recs : List Record}
    (h : MdnsDnsHandler.handle_admin_query zone_apex n t = some recs) :
    ∀ r ∈ recs, r.ttl ≤ 10 := by
  unfold MdnsDnsHandler.handle_admin_query at h
  split_ifs at h <;> cases h <;> intro r hr <;>
    simp_all [generate_domain_enumeration_records, generate_soa_record,
      generate_ns_record, MAX_ADMIN_TTL]

/-- When the engine succeeds, `MdnsResolver::query` returns an `ok` result. -/
theorem query_result_ok {c : CacheMap} {qn : String} {rt : RecordType}
    {raw : List Record} {disc : String} {now ttl : Nat} :
    ∃ recs c2, MdnsResolver.query c qn rt (.ok raw) disc now ttl = (.ok recs, c2) := by
  unfold MdnsResolver.query
  cases hget : Cache.get c qn rt now ttl with
  | some cached => exact ⟨cached, c, rfl⟩
  | none =>
    dsimp only
    split
    · exact ⟨_, _, rfl⟩
    · exact ⟨_, _, rfl⟩

/-- C2: for every request processed to completion from any cache state
reachable through the resolver, every resource record in the emitted answer
section has ttl at most 10 seconds — regardless of the TTL the record carried
internally (mDNS-derived records use the placeholder 120) and regardless of
whether it came from the administrative answerer or from mDNS resolution. -/
theorem C2_emitted_records_ttl_le_ten (zone_apex : String)
    (sup : RecordSuppressionConfig) (disc : String) (ttl : Nat) (c : CacheMap)
    (now : Nat) (q : Question) (engine : Except Unit (List Record))
    (hreach : ReachableCache disc ttl c) :
    ∀ r ∈ (MdnsDnsHandler.handle_request zone_apex sup disc ttl c now q engine).2.1,
      r.ttl ≤ 10 := by
  have hb : CacheBounded c := reachable_cache_bounded hreach
  intro r hr
  unfold MdnsDnsHandler.handle_request at hr
  split at hr
  · cases hadmin : MdnsDnsHandler.handle_admin_query zone_apex q.name q.qtype with
    | some admin_records =>
      rw [hadmin] at hr
      dsimp only at hr
      exact admin_records_ttl hadmin r hr
    | none =>
      rw [hadmin] at hr
      dsimp only at hr
      cases hq : (MdnsResolver.query c q.name q.qtype engine disc now ttl).1 with
      | ok recs0 =>
        rw [hq] at hr
        unfold build_response_from_records at hr
        dsimp only at hr
        by_cases he : recs0.isEmpty
        · rw [if_pos he] at hr
          dsimp only at hr
          cases hr
        · rw [if_neg he] at hr
          dsimp only at hr
          exact query_records_bounded hb hq r (filter_suppressed_subset hr)
      | error e =>
        rw [hq] at hr
        unfold build_response_from_records at hr
        dsimp only at hr
        cases hr
  · dsimp only at hr
    cases hr

/-- C2 witness: a concrete PTR request carrying a TTL-120 engine record is
emitted with TTL 10. -/
theorem C2_witness :
    ReachableCache "mdns.home.arpa." 120 emptyCacheMap ∧
    samplePtrOut ∈ (MdnsDnsHandler.handle_request "local." defaultSuppressionConfig
        "mdns.home.arpa." 120 emptyCacheMap 0 ⟨"_printer._tcp.home.arpa.", .PTR⟩
        (.ok [samplePtrRaw])).2.1 ∧
    samplePtrOut.ttl ≤ 10 :=
  ⟨ReachableCache.empty, by decide,
    C2_emitted_records_ttl_le_ten "local." defaultSuppressionConfig "mdns.home.arpa."
      120 emptyCacheMap 0 ⟨"_printer._tcp.home.arpa.", .PTR⟩ (.ok [samplePtrRaw])
      ReachableCache.empty samplePtrOut (by decide)⟩

/-- C4: for every question that reaches mDNS resolution (accepted by the
classifier, not administrative, not already cached), a lookup that completes
without a transport error yields response code NOERROR — even with zero
records, never NXDOMAIN — while a transport error from the mDNS layer yields
SERVFAIL with no records. -/
theorem C4_resolve_path_response_codes (zone_apex : String)
    (sup : RecordSuppressionConfig) (disc : String) (ttl : Nat) (c : CacheMap)
    (now : Nat) (q : Question)
    (hh : should_handle_domain q.name = true)
    (ha : MdnsDnsHandler.handle_admin_query zone_apex q.name q.qtype = none)
    (hmiss : Cache.get c q.name q.qtype now ttl = none) :
    (∀ raw, (MdnsDnsHandler.handle_request zone_apex sup disc ttl c now q
        (.ok raw)).1 = .NoError) ∧
    (MdnsDnsHandler.handle_request zone_apex sup disc ttl c now q
        (.error ())).1 = .ServFail ∧
    (MdnsDnsHandler.handle_request zone_apex sup disc ttl c now q
        (.error ())).2.1 = [] := by
  refine ⟨?_, ?_, ?_⟩
  · intro raw
    unfold MdnsDnsHandler.handle_request
    rw [if_pos hh, ha]
    dsimp only
    rcases @query_result_ok c q.name q.qtype raw disc now ttl with ⟨recs, c2, hq⟩
    rw [hq]
    unfold build_response_from_records
    dsimp only
    by_cases he : recs.isEmpty
    · rw [if_pos he]
    · rw [if_neg he]
  · unfold MdnsDnsHandler.handle_request
    rw [if_pos hh, ha]
    dsimp only
    unfold MdnsResolver.query
    rw [hmiss]
    rfl
  · unfold MdnsDnsHandler.handle_request
    rw [if_pos hh, ha]
    dsimp only
    unfold MdnsResolver.query
    rw [hmiss]
    rfl

/-- C4 witness: a concrete resolvable PTR question gets NOERROR on a clean
empty lookup and SERVFAIL with no records on a transport error. -/
theorem C4_witness :
    should_handle_domain "_printer._tcp.home.arpa." = true ∧
    MdnsDnsHandler.handle_admin_query "local." "_printer._tcp.home.arpa."
      RecordType.PTR = none ∧
    Cache.get emptyCacheMap "_printer._tcp.home.arpa." RecordType.PTR 0 120 = none ∧
    (MdnsDnsHandler.handle_request "local." defaultSuppressionConfig "mdns.home.arpa."
      120 emptyCacheMap 0 ⟨"_printer._tcp.home.arpa.", RecordType.PTR⟩
      (.ok [])).1 = .NoError ∧
    (MdnsDnsHandler.handle_request "local." defaultSuppressionConfig "mdns.home.arpa."
      120 emptyCacheMap 0 ⟨"_printer._tcp.home.arpa.", RecordType.PTR⟩
      (.error ())).1 = .ServFail ∧
    (MdnsDnsHandler.handle_request "local." defaultSuppressionConfig "mdns.home.arpa."
      120 emptyCacheMap 0 ⟨"_printer._tcp.home.arpa.", RecordType.PTR⟩
      (.error ())).2.1 = [] :=
  ⟨by decide, by decide, by decide,
    (C4_resolve_path_response_codes "local." defaultSuppressionConfig "mdns.home.arpa."
      120 emptyCacheMap 0 ⟨"_printer._tcp.home.arpa.", RecordType.PTR⟩
      (by decide) (by decide) (by decide)).1 [],
    (C4_resolve_path_response_codes "local." defaultSuppressionConfig "mdns.home.arpa."
      120 emptyCacheMap 0 ⟨"_printer._tcp.home.arpa.", RecordType.PTR⟩
      (by decide) (by decide) (by decide)).2.1,
    (C4_resolve_path_response_codes "local." defaultSuppressionConfig "mdns.home.arpa."
      120 emptyCacheMap 0 ⟨"_printer._tcp.home.arpa.", RecordType.PTR⟩
      (by decide) (by decide) (by decide)).2.2⟩

/-- C10: in every cache state reachable through the resolver's query, every
cached entry holds at least one record (the resolver never inserts an empty
list), no lookup ever answers with a cached empty list, and a query that found
nothing leaves the cache unchanged, so the next identical question is
re-executed in full rather than answered from cache. -/
theorem C10_query_never_caches_empty (disc : String) (ttl : Nat) (c : CacheMap)
    (hreach : ReachableCache disc ttl c) :
    (∀ k e, c k = some e → e.records ≠ []) ∧
    (∀ qname rt now, Cache.get c qname rt now ttl ≠ some []) ∧
    (∀ qname rt now, Cache.get c qname rt now ttl = none →
      MdnsResolver.query c qname rt (Except.ok []) disc now ttl
        = (Except.ok [], c)) := by
  have hne := reachable_cache_nonempty hreach
  refine ⟨hne, ?_, ?_⟩
  · intro qn rt now hg
    rcases cache_get_some hg with ⟨e, he, hrec⟩
    exact hne _ e he hrec
  · intro qn rt now hmiss
    unfold MdnsResolver.query
    rw [hmiss]
    cases rt <;>
      simp [capRecords, rewrite_records_to_discovery_domain, List.isEmpty]

/-- C10 witness: from the reachable empty cache, a miss plus an empty engine
result returns empty and leaves the cache untouched. -/
theorem C10_witness :
    ReachableCache "mdns.home.arpa." 120 emptyCacheMap ∧
    Cache.get emptyCacheMap "printer.local." RecordType.A 5 120 = none ∧
    MdnsResolver.query emptyCacheMap "printer.local." RecordType.A (Except.ok [])
      "mdns.home.arpa." 5 120 = (Except.ok [], emptyCacheMap) :=
  ⟨ReachableCache.empty, by decide,
    (C10_query_never_caches_empty "mdns.home.arpa." 120 emptyCacheMap
      ReachableCache.empty).2.2 "printer.local." RecordType.A 5 (by decide)⟩

/-- When every record in a list is an IPv4 link-local A record off the
client's link, the suppression filter removes them all. -/
theorem suppress_all_link_local_A {records : List Record} {client : IpAddr}
    {sup : RecordSuppressionConfig}
    (hen : sup.enabled = true) (hclient : sup.client_ip = some client)
    (hall : ∀ r ∈ records, ∃ addr, r.rdata = .A addr ∧
      is_ipv4_link_local addr = true ∧ is_same_link client (.v4 addr) = false) :
    filter_suppressed_records records sup = [] := by
  unfold filter_suppressed_records
  rw [if_pos hen]
  dsimp only
  apply filter_all_false
  intro r hrm
  rcases hall r hrm with ⟨addr, hrd, hll, hsl⟩
  have haddr : isAddressRecord r = true := by
    unfold isAddressRecord
    rw [hrd]
  have hs : should_suppress_address_record r sup = true := by
    unfold should_suppress_address_record
    rw [if_pos hen, hclient]
    dsimp only
    rw [hrd]
    dsimp only
    rw [if_pos hll, hsl]
    rfl
  rw [if_pos haddr, hs]
  rfl

/-- C6: for an A query that reaches mDNS resolution, if every discoverable A
record for the queried hostname carries an IPv4 link-local (169.254.0.0/16)
address, suppression is enabled, and the client's known source IP is not on
the same link, then the A records are dropped and the response is NOERROR
with zero records. -/
theorem C6_link_local_only_a_suppressed (zone_apex : String) (disc : String)
    (ttl : Nat) (c : CacheMap) (now : Nat) (qn : String) (raw : List Record)
    (client : IpAddr) (sup : RecordSuppressionConfig)
    (hh : should_handle_domain qn = true)
    (ha : MdnsDnsHandler.handle_admin_query zone_apex qn .A = none)
    (hmiss : Cache.get c qn .A now ttl = none)
    (hen : sup.enabled = true)
    (hclient : sup.client_ip = some client)
    (hraw : allARecordsLinkLocalNonLocal client raw = true) :
    (MdnsDnsHandler.handle_request zone_apex sup disc ttl c now ⟨qn, .A⟩
        (.ok raw)).1 = .NoError ∧
    (MdnsDnsHandler.handle_request zone_apex sup disc ttl c now ⟨qn, .A⟩
        (.ok raw)).2.1 = [] := by
  have hall : ∀ r ∈ (capRecords (rewrite_records_to_discovery_domain raw disc)).filter
      (fun r => decide (r.recordType = RecordType.A)),
      ∃ addr, r.rdata = .A addr ∧ is_ipv4_link_local addr = true ∧
        is_same_link client (.v4 addr) = false := by
    intro r hrm
    rcases List.mem_filter.mp hrm with ⟨hmem, hty⟩
    have hty2 : r.recordType = .A := of_decide_eq_true hty
    rcases recordType_eq_A_iff.mp hty2 with ⟨addr, hrd⟩
    rcases mem_cap_rewrite hmem with ⟨s, hs, hreq⟩
    have hrd2 : (rewrite_record_to_discovery s disc).rdata = .A addr := by
      rw [← capRecord_rdata, ← hreq]
      exact hrd
    have hsrd : s.rdata = .A addr := rewrite_record_rdata_A.mp hrd2
    unfold allARecordsLinkLocalNonLocal at hraw
    have hall1 := (List.all_eq_true.mp hraw) s hs
    rw [hsrd] at hall1
    dsimp only at hall1
    rcases (Bool.and_eq_true _ _).mp hall1 with ⟨h1, h2⟩
    exact ⟨addr, hrd, h1, by simpa using h2⟩
  have hq1 : (MdnsResolver.query c qn RecordType.A (.ok raw) disc now ttl).1
      = .ok ((capRecords (rewrite_records_to_discovery_domain raw disc)).filter
          (fun r => decide (r.recordType = RecordType.A))) := by
    unfold MdnsResolver.query
    rw [hmiss]
    dsimp only
    rw [if_pos (Or.inl rfl)]
    dsimp only
    rw [if_pos rfl]
  unfold MdnsDnsHandler.handle_request
  rw [if_pos hh, ha]
  dsimp only
  rw [hq1]
  unfold build_response_from_records
  dsimp only
  by_cases he : ((capRecords (rewrite_records_to_discovery_domain raw disc)).filter
      (fun r => decide (r.recordType = RecordType.A))).isEmpty
  · rw [if_pos he]
    exact ⟨rfl, rfl⟩
  · rw [if_neg he]
    dsimp only
    exact ⟨rfl, suppress_all_link_local_A hen hclient hall⟩

/-- C6 witness: an A query whose only discoverable address is 169.254.1.1,
with client 8.8.8.8, is answered NOERROR with zero records. -/
theorem C6_witness :
    should_handle_domain "printer.local." = true ∧
    MdnsDnsHandler.handle_admin_query "mdns.home.arpa." "printer.local."
      RecordType.A = none ∧
    Cache.get emptyCacheMap "printer.local." RecordType.A 0 120 = none ∧
    allARecordsLinkLocalNonLocal (IpAddr.v4 ⟨8, 8, 8, 8⟩) [sampleLinkLocalA] = true ∧
    (MdnsDnsHandler.handle_request "mdns.home.arpa."
        ⟨true, some (IpAddr.v4 ⟨8, 8, 8, 8⟩)⟩ "mdns.home.arpa." 120 emptyCacheMap 0
        ⟨"printer.local.", RecordType.A⟩ (.ok [sampleLinkLocalA])).1 = .NoError ∧
    (MdnsDnsHandler.handle_request "mdns.home.arpa."
        ⟨true, some (IpAddr.v4 ⟨8, 8, 8, 8⟩)⟩ "mdns.home.arpa." 120 emptyCacheMap 0
        ⟨"printer.local.", RecordType.A⟩ (.ok [sampleLinkLocalA])).2.1 = [] :=
  ⟨by decide, by decide, by decide, by decide,
    (C6_link_local_only_a_suppressed "mdns.home.arpa." "mdns.home.arpa." 120
      emptyCacheMap 0 "printer.local." [sampleLinkLocalA] (IpAddr.v4 ⟨8, 8, 8, 8⟩)
      ⟨true, some (IpAddr.v4 ⟨8, 8, 8, 8⟩)⟩ (by decide) (by decide) (by decide)
      (by decide) (by decide) (by decide)).1,
    (C6_link_local_only_a_suppressed "mdns.home.arpa." "mdns.home.arpa." 120
      emptyCacheMap 0 "printer.local." [sampleLinkLocalA] (IpAddr.v4 ⟨8, 8, 8, 8⟩)
      ⟨true, some (IpAddr.v4 ⟨8, 8, 8, 8⟩)⟩ (by decide) (by decide) (by decide)
      (by decide) (by decide) (by decide)).2⟩

/-- Every record produced by the SRV browse loop comes from a resolved event
whose fullname is byte-for-byte equal to the question name. -/
theorem srv_loop_only_exact (service_name : String) :
    ∀ polls : List PollResult, ∀ r ∈ query_srv_loop service_name polls,
      ∃ info, PollResult.event (ServiceEvent.serviceResolved info) ∈ polls ∧
        info.fullname = service_name ∧ r = srvRecordOf service_name info := by
  intro polls
  induction polls with
  | nil => intro r hr; cases hr
  | cons p rest ih =>
    intro r hr
    cases p with
    | event e =>
      cases e with
      | serviceResolved info =>
        by_cases hf : info.fullname = service_name
        · have hred : query_srv_loop service_name
              (PollResult.event (ServiceEvent.serviceResolved info) :: rest)
              = [srvRecordOf service_name info] := by
            unfold query_srv_loop
            exact if_pos hf
          rw [hred] at hr
          rcases List.mem_singleton.mp hr with rfl
          exact ⟨info, List.mem_cons_self _ _, hf, rfl⟩
        · have hred : query_srv_loop service_name
              (PollResult.event (ServiceEvent.serviceResolved info) :: rest)
              = query_srv_loop service_name rest := by
            show (if info.fullname = service_name then [srvRecordOf service_name info]
                  else query_srv_loop service_name rest)
                = query_srv_loop service_name rest
            exact if_neg hf
          rw [hred] at hr
          rcases ih r hr with ⟨i, hi, h1, h2⟩
          exact ⟨i, List.mem_cons_of_mem _ hi, h1, h2⟩
      | searchStarted ty =>
        have hred : query_srv_loop service_name
            (PollResult.event (ServiceEvent.searchStarted ty) :: rest)
            = query_srv_loop service_name rest := rfl
        rw [hred] at hr
        rcases ih r hr with ⟨i, hi, h1, h2⟩
        exact ⟨i, List.mem_cons_of_mem _ hi, h1, h2⟩
      | searchStopped ty =>
        have hred : query_srv_loop service_name
            (PollResult.event (ServiceEvent.searchStopped ty) :: rest) = [] := rfl
        rw [hred] at hr
        cases hr
      | otherEvent =>
        have hred : query_srv_loop service_name
            (PollResult.event ServiceEvent.otherEvent :: rest)
            = query_srv_loop service_name rest := rfl
        rw [hred] at hr
        rcases ih r hr with ⟨i, hi, h1, h2⟩
        exact ⟨i, List.mem_cons_of_mem _ hi, h1, h2⟩
    | recvError =>
      have hred : query_srv_loop service_name (PollResult.recvError :: rest) = [] := rfl
      rw [hred] at hr
      cases hr
    | pollTimeout =>
      have hred : query_srv_loop service_name (PollResult.pollTimeout :: rest)
          = query_srv_loop service_name rest := rfl
      rw [hred] at hr
      rcases ih r hr with ⟨i, hi, h1, h2⟩
      exact ⟨i, List.mem_cons_of_mem _ hi, h1, h2⟩

/-- Every record produced by the TXT browse loop comes from a resolved event
whose fullname is byte-for-byte equal to the question name. -/
theorem txt_loop_only_exact (service_name : String) :
    ∀ polls : List PollResult, ∀ r ∈ query_txt_loop service_name polls,
      ∃ info, PollResult.event (ServiceEvent.serviceResolved info) ∈ polls ∧
        info.fullname = service_name ∧ r = txtRecordOf service_name info := by
  intro polls
  induction polls with
  | nil => intro r hr; cases hr
  | cons p rest ih =>
    intro r hr
    cases p with
    | event e =>
      cases e with
      | serviceResolved info =>
        by_cases hf : info.fullname = service_name
        · have hred : query_txt_loop service_name
              (PollResult.event (ServiceEvent.serviceResolved info) :: rest)
              = if (info.properties.map (fun p => p.1 ++ "=" ++ p.2)).isEmpty
                then [] else [txtRecordOf service_name info] := by
            unfold query_txt_loop
            exact if_pos hf
          rw [hred] at hr
          split at hr
          · cases hr
          · rcases List.mem_singleton.mp hr with rfl
            exact ⟨info, List.mem_cons_self _ _, hf, rfl⟩
        · have hred : query_txt_loop service_name
              (PollResult.event (ServiceEvent.serviceResolved info) :: rest)
              = query_txt_loop service_name rest := by
            show (if info.fullname = service_name then
                    if (info.properties.map (fun p => p.1 ++ "=" ++ p.2)).isEmpty
                    then [] else [txtRecordOf service_name info]
                  else query_txt_loop service_name rest)
                = query_txt_loop service_name rest
            exact if_neg hf
          rw [hred] at hr
          rcases ih r hr with ⟨i, hi, h1, h2⟩
          exact ⟨i, List.mem_cons_of_mem _ hi, h1, h2⟩
      | searchStarted ty =>
        have hred : query_txt_loop service_name
            (PollResult.event (ServiceEvent.searchStarted ty) :: rest)
            = query_txt_loop service_name rest := rfl
        rw [hred] at hr
        rcases ih r hr with ⟨i, hi, h1, h2⟩
        exact ⟨i, List.mem_cons_of_mem _ hi, h1, h2⟩
      | searchStopped ty =>
        have hred : query_txt_loop service_name
            (PollResult.event (ServiceEvent.searchStopped ty) :: rest) = [] := rfl
        rw [hred] at hr
        cases hr
      | otherEvent =>
        have hred : query_txt_loop service_name
            (PollResult.event ServiceEvent.otherEvent :: rest)
            = query_txt_loop service_name rest := rfl
        rw [hred] at hr
        rcases ih r hr with ⟨i, hi, h1, h2⟩
        exact ⟨i, List.mem_cons_of_mem _ hi, h1, h2⟩
    | recvError =>
      have hred : query_txt_loop service_name (PollResult.recvError :: rest) = [] := rfl
      rw [hred] at hr
      cases hr
    | pollTimeout =>
      have hred : query_txt_loop service_name (PollResult.pollTimeout :: rest)
          = query_txt_loop service_name rest := rfl
      rw [hred] at hr
      rcases ih r hr with ⟨i, hi, h1, h2⟩
      exact ⟨i, List.mem_cons_of_mem _ hi, h1, h2⟩

/-- C9 (amended): the SRV/TXT engine accepts a ServiceResolved event exactly
when the event's fullname is byte-for-byte equal to the question name — the
comparison is case-sensitive and performs no space-escape normalization.
Only such an event produces the SRV or TXT record, and an exactly-matching
resolved event does produce it (for TXT, when the property list is
non-empty). -/
theorem C9_srv_txt_accept_is_exact_equality (service_name : String)
    (polls : List PollResult) :
    (∀ r ∈ query_srv_model service_name polls,
      ∃ info, PollResult.event (ServiceEvent.serviceResolved info) ∈ polls ∧
        info.fullname = service_name ∧ r = srvRecordOf service_name info) ∧
    (∀ r ∈ query_txt_model service_name polls,
      ∃ info, PollResult.event (ServiceEvent.serviceResolved info) ∈ polls ∧
        info.fullname = service_name ∧ r = txtRecordOf service_name info) ∧
    (∀ info rest, ¬ (splitDots service_name).length < 4 →
      info.fullname = service_name →
      query_srv_model service_name
        (PollResult.event (ServiceEvent.serviceResolved info) :: rest)
        = [srvRecordOf service_name info]) ∧
    (∀ info rest, ¬ (splitDots service_name).length < 4 →
      info.fullname = service_name →
      (info.properties.map (fun p => p.1 ++ "=" ++ p.2)).isEmpty = false →
      query_txt_model service_name
        (PollResult.event (ServiceEvent.serviceResolved info) :: rest)
        = [txtRecordOf service_name info]) := by
  refine ⟨?_, ?_, ?_, ?_⟩
  · intro r hr
    unfold query_srv_model at hr
    split at hr
    · cases hr
    · exact srv_loop_only_exact service_name polls r hr
  · intro r hr
    unfold query_txt_model at hr
    split at hr
    · cases hr
    · exact txt_loop_only_exact service_name polls r hr
  · intro info rest hlen hf
    unfold query_srv_model
    rw [if_neg hlen]
    unfold query_srv_loop
    exact if_pos hf
  · intro info rest hlen hf hprops
    unfold query_txt_model
    rw [if_neg hlen]
    have hred : query_txt_loop service_name
        (PollResult.event (ServiceEvent.serviceResolved info) :: rest)
        = if (info.properties.map (fun p => p.1 ++ "=" ++ p.2)).isEmpty
          then [] else [txtRecordOf service_name info] := by
      unfold query_txt_loop
      exact if_pos hf
    rw [hred, hprops]
    rfl

/-- C9 counterexample: an event whose fullname differs from the question only
in letter case is rejected by the engine (no SRV record is produced), although
the lower-cased forms agree — so acceptance is not the normalized comparison
the claim describes. -/
theorem C9_counterexample :
    query_srv_model "myprinter._http._tcp.local."
      [PollResult.event (ServiceEvent.serviceResolved sampleSrvInfoUpper)] = [] ∧
    strToLower sampleSrvInfoUpper.fullname
      = strToLower "myprinter._http._tcp.local." := by
  constructor
  · decide
  · decide

/-- C9 witness: an exactly-matching resolved event does produce the single
SRV record. -/
theorem C9_witness :
    (¬ (splitDots "myprinter._http._tcp.local.").length < 4) ∧
    sampleSrvInfo.fullname = "myprinter._http._tcp.local." ∧
    query_srv_model "myprinter._http._tcp.local."
      [PollResult.event (ServiceEvent.serviceResolved sampleSrvInfo)]
      = [srvRecordOf "myprinter._http._tcp.local." sampleSrvInfo] :=
  ⟨by decide, by decide,
    (C9_srv_txt_accept_is_exact_equality "myprinter._http._tcp.local."
      []).2.2.1 sampleSrvInfo [] (by decide) (by decide)⟩

/-- C1: the classifier ignores the configured discovery domain.  An A query
for `printer.mdns.home.arpa.` — which ends in the configured discovery domain
`mdns.home.arpa.` and so, per the claim, must not be refused — is refused by
the handler (NXDOMAIN, zero answer records), because `should_handle_domain`
only tests the fixed `.local` suffix and the `._tcp.`/`._udp.` substrings.
An A query for `example.com.` is refused as the claim states. -/
theorem C1_discovery_domain_query_refused :
    should_handle_domain "printer.mdns.home.arpa." = false ∧
    strEndsWith (strToLower "printer.mdns.home.arpa.")
      (strToLower "mdns.home.arpa.") = true ∧
    should_handle_domain "example.com." = false ∧
    (MdnsDnsHandler.handle_request "local." defaultSuppressionConfig
        "mdns.home.arpa." 120 emptyCacheMap 0
        ⟨"printer.mdns.home.arpa.", RecordType.A⟩ (.ok [])).1
      = .NXDomain ∧
    (MdnsDnsHandler.handle_request "local." defaultSuppressionConfig
        "mdns.home.arpa." 120 emptyCacheMap 0
        ⟨"printer.mdns.home.arpa.", RecordType.A⟩ (.ok [])).2.1 = [] := by
  refine ⟨by decide, by decide, by decide, by decide, by decide⟩

/-- C3: the zone-apex SOA admin answer is emitted without the `.local.` →
discovery-domain rewrite.  A handler whose zone apex is `foo.local.` answers
an SOA query for `foo.local.` with NOERROR and a record whose embedded SOA
mname (`discovery-proxy.local.`) still ends in `.local.`, contradicting the
claim that every emitted name is rewritten into the discovery domain. -/
theorem C3_admin_soa_embeds_dot_local :
    (MdnsDnsHandler.handle_request "foo.local." defaultSuppressionConfig
        "mdns.home.arpa." 120 emptyCacheMap 0 ⟨"foo.local.", RecordType.SOA⟩
        (.ok [])).1 = .NoError ∧
    (MdnsDnsHandler.handle_request "foo.local." defaultSuppressionConfig
        "mdns.home.arpa." 120 emptyCacheMap 0 ⟨"foo.local.", RecordType.SOA⟩
        (.ok [])).2.1 = [generate_soa_record "foo.local."] ∧
    ((MdnsDnsHandler.handle_request "foo.local." defaultSuppressionConfig
        "mdns.home.arpa." 120 emptyCacheMap 0 ⟨"foo.local.", RecordType.SOA⟩
        (.ok [])).2.1.any (fun r =>
          (recordEmbeddedNames r).any (fun n => strEndsWith n ".local."))) = true := by
  refine ⟨by decide, by decide, by decide⟩

/-- C5: the zone-apex SOA scenario never reaches the administrative answerer:
with the default configuration (discovery domain `mdns.home.arpa.`, zone apex
`local.`), the SOA query for `mdns.home.arpa.` already fails
`should_handle_domain` and is answered NXDOMAIN with zero records instead of
the claimed NOERROR with one rewritten SOA record. -/
theorem C5_zone_apex_soa_query_refused :
    should_handle_domain "mdns.home.arpa." = false ∧
    (MdnsDnsHandler.handle_request "local." defaultSuppressionConfig
        "mdns.home.arpa." 120 emptyCacheMap 0
        ⟨"mdns.home.arpa.", RecordType.SOA⟩ (.ok [])).1 = .NXDomain ∧
    (MdnsDnsHandler.handle_request "local." defaultSuppressionConfig
        "mdns.home.arpa." 120 emptyCacheMap 0
        ⟨"mdns.home.arpa.", RecordType.SOA⟩ (.ok [])).2.1 = [] := by
  refine ⟨by decide, by decide, by decide⟩
